import Mathlib

/-!
Shallow embedding of `src/Storages/MergeTree/RPNBuilder.cpp` (the RPN builder
tree-node adapter of the MergeTree index analysis): canonical naming over the
two expression representations (parsed AST and compiled actions DAG), the
constant classifier/extractor, and the three prepared-set lookup strategies.

External collaborators that the file only calls (IAST naming, PreparedSets
registry, Set type queries, Field/DataType helpers) are modelled as plain data
with definitions marked `Modelled from the spec:`; everything else is a direct
translation of the C++ in `RPNBuilder.cpp`.

Thrown C++ exceptions and undefined behaviour (null-pointer dereference,
failing `assert_cast`) are modelled by `Except` errors.
-/

namespace RPN

/-- Field: a tagged scalar value (models `DB::Field`, external collaborator);
supports a null state. -/
inductive Field where
  | null : Field
  | int : Int → Field
  | str : String → Field
deriving DecidableEq

/-- Models `Field::isNull`. -/
def Field.isNull : Field → Bool
  | .null => true
  | _ => false

/-- Modelled from the spec: `FieldVisitorToString` (external), the textual
rendering of a constant value used by canonical naming in both
representations. -/
def fieldToString : Field → String
  | .null => "NULL"
  | .int n => toString n
  | .str s => "\x27" ++ s ++ "\x27"

/-- Data type with at most one nullability wrapper (models `IDataType` /
`DataTypeNullable`, external; in ClickHouse `Nullable` cannot be nested). -/
structure DataType where
  base : String
  nullable : Bool
deriving DecidableEq

/-- Modelled from the spec: `removeNullable` (external) strips the nullability
wrapper if present. -/
def removeNullable (t : DataType) : DataType := { t with nullable := false }

/-- Modelled from the spec: `FieldToDataType` (external) derives a runtime
type from a literal value. -/
def fieldToDataType : Field → DataType
  | .null => ⟨"Nothing", true⟩
  | .int _ => ⟨"Int64", false⟩
  | .str _ => ⟨"String", false⟩

/-- Prepared set (models `DB::Set`, external): per-position element types and
the "is fully created" readiness flag; `id` gives distinct sets a distinct
identity. -/
structure PreparedSet where
  elementTypes : List DataType
  isCreated : Bool
  id : Nat
deriving DecidableEq

/-- Modelled from the spec: `Set::areTypesEqual` (external) — the set's
element type at the given set-internal tuple index equals the given type. -/
def PreparedSet.areTypesEqual (s : PreparedSet) (tupleIndex : Nat) (t : DataType) : Bool :=
  match s.elementTypes[tupleIndex]? with
  | some et => et == t
  | none => false

/-- Data carried by a column: either ordinary field rows or the payload of a
materialized-set column (models the `IColumn` kinds this file inspects). -/
inductive ColumnData where
  | fields : List Field → ColumnData
  | setData : PreparedSet → ColumnData
deriving DecidableEq

/-- A column as inspected by `RPNBuilder.cpp`: a `ColumnConst` wrapper around a
data column, or a plain (non-const) column. -/
inductive IColumn where
  | const : ColumnData → IColumn
  | plain : ColumnData → IColumn
deriving DecidableEq

/-- Models `isColumnConst` (a `typeid_cast<const ColumnConst *>` check). -/
def isColumnConst : IColumn → Bool
  | .const _ => true
  | .plain _ => false

/-- Row 0 of a column's data; `none` models the throwing/UB cases
(`ColumnSet::operator[]` throws, out-of-range access is UB). -/
def ColumnData.at0 : ColumnData → Option Field
  | .fields vs => vs[0]?
  | .setData _ => none

/-- Models `(*column)[0]` / `ColumnConst::getField` — a `ColumnConst`
delegates to row 0 of its wrapped data column. -/
def IColumn.at0 : IColumn → Option Field
  | .const data => data.at0
  | .plain data => data.at0

/-- Models `ColumnWithTypeAndName` for entries of the constant block (whose
columns are always materialized, hence no null column pointer). -/
structure ColumnWithTypeAndName where
  column : IColumn
  type : DataType
  name : String
deriving DecidableEq

/-- Models `DB::Block` as its list of named columns. -/
def Block := List ColumnWithTypeAndName

/-- Models `Block::has`. -/
def Block.has (b : Block) (n : String) : Bool :=
  List.any b (fun c => c.name == n)

/-- Models `Block::getByName`; `none` corresponds to the thrown
"Not found column in block" exception. -/
def Block.getByName (b : Block) (n : String) : Option ColumnWithTypeAndName :=
  List.find? (fun c => c.name == n) b

/-- Every const column of the block holds at least one row (the invariant of
materialized constant blocks, under which row-0 access is defined). -/
def Block.wellFormed (b : Block) : Bool :=
  List.all b (fun c => (IColumn.at0 c.column).isSome)

/-- Syntax-tree node (models the `IAST` kinds this file inspects:
`ASTLiteral`, `ASTIdentifier`, `ASTFunction`, `ASTSubquery`,
`ASTTableIdentifier`; all of them carry an alias field, `""` meaning none). -/
inductive AST where
  | literal : Field → String → AST
  | identifier : String → String → AST
  | function : String → List AST → String → AST
  | subquery : Nat → String → AST
  | tableIdentifier : String → String → AST

/-- Models the `typeid_cast<const ASTLiteral *>` / `as<ASTLiteral>` check. -/
def AST.isLiteral : AST → Bool
  | .literal _ _ => true
  | _ => false

/-- Models the `as<ASTSubquery>() || as<ASTTableIdentifier>()` check. -/
def AST.isSubqueryOrTableIdentifier : AST → Bool
  | .subquery _ _ => true
  | .tableIdentifier _ _ => true
  | _ => false

mutual

/-- Modelled from the spec: `IAST::getColumnNameWithoutAlias` (external), the
tree's own alias-stripping canonicalization — literals render their value
textually, functions render `name(arg, ..., arg)`, identifiers render their
declared name, aliases are dropped recursively. -/
def AST.getColumnNameWithoutAlias : AST → String
  | .literal v _ => fieldToString v
  | .identifier n _ => n
  | .function n args _ => n ++ "(" ++ astColumnNameListWithoutAlias args ++ ")"
  | .subquery i _ => "__subquery_" ++ toString i
  | .tableIdentifier n _ => n

/-- Comma-joined alias-stripped canonical names of a function's arguments. -/
def astColumnNameListWithoutAlias : List AST → String
  | [] => ""
  | [a] => AST.getColumnNameWithoutAlias a
  | a :: b :: rest =>
      AST.getColumnNameWithoutAlias a ++ ", " ++ astColumnNameListWithoutAlias (b :: rest)

end

mutual

/-- Modelled from the spec: `IAST::getColumnName` (external) — like the
alias-stripping form but a node carrying an alias is rendered as that alias
("Constant expr should use alias names if any"). -/
def AST.getColumnName : AST → String
  | .literal v al => if al == "" then fieldToString v else al
  | .identifier n al => if al == "" then n else al
  | .function n args al => if al == "" then n ++ "(" ++ astColumnNameList args ++ ")" else al
  | .subquery i al => if al == "" then "__subquery_" ++ toString i else al
  | .tableIdentifier n al => if al == "" then n else al

/-- Comma-joined column names of a function's arguments. -/
def astColumnNameList : List AST → String
  | [] => ""
  | [a] => AST.getColumnName a
  | a :: b :: rest => AST.getColumnName a ++ ", " ++ astColumnNameList (b :: rest)

end

/-- Hash of a string, used by the structural tree hash. -/
def strHash (s : String) : Nat :=
  s.data.foldl (fun h c => h * 131 + c.toNat) 7

/-- Combines two hash values. -/
def mixHash (a b : Nat) : Nat := a * 1000003 + b

mutual

/-- Modelled from the spec: `IAST::getTreeHash` (external), a deterministic
structural hash of the expression's shape. -/
def AST.treeHash : AST → Nat
  | .literal v _ => mixHash 1 (strHash (fieldToString v))
  | .identifier n _ => mixHash 2 (strHash n)
  | .function n args _ => mixHash 3 (mixHash (strHash n) (astListTreeHash args))
  | .subquery i _ => mixHash 4 i
  | .tableIdentifier n _ => mixHash 5 (strHash n)

/-- Structural hash of an argument list. -/
def astListTreeHash : List AST → Nat
  | [] => 11
  | a :: rest => mixHash (AST.treeHash a) (astListTreeHash rest)

end

mutual

/-- Modelled from the spec: `KeyDescription::moduloToModuloLegacyRecursive`
(external) — rewrites every `modulo` function call to its legacy name
`moduleLegacy` throughout the (cloned) subtree, leaving everything else
unchanged. -/
def moduloToModuloLegacyRecursive : AST → AST
  | .function n args al =>
      .function (if n == "modulo" then "moduleLegacy" else n)
        (moduloToModuloLegacyRecursiveList args) al
  | a => a

/-- Pointwise legacy-modulo rewrite of an argument list. -/
def moduloToModuloLegacyRecursiveList : List AST → List AST
  | [] => []
  | a :: rest => moduloToModuloLegacyRecursive a :: moduloToModuloLegacyRecursiveList rest

end

/-- Sets the alias field of a syntax-tree node ("wrapping the expression in an
alias"). -/
def AST.setAlias (s : String) : AST → AST
  | .literal v _ => .literal v s
  | .identifier n _ => .identifier n s
  | .function n args _ => .function n args s
  | .subquery i _ => .subquery i s
  | .tableIdentifier n _ => .tableIdentifier n s

/-- Models `ActionsDAG::ActionType`. -/
inductive ActionType where
  | INPUT
  | COLUMN
  | ALIAS
  | ARRAY_JOIN
  | FUNCTION
deriving DecidableEq

/-- Models `ActionsDAG::Node`: type tag, `result_name`, `result_type`, the
(possibly null) `column`, the children, and `function_base->getName()`. -/
inductive DAGNode where
  | mk : ActionType → String → DataType → Option IColumn → List DAGNode → String → DAGNode

/-- The node's action type. -/
def DAGNode.type : DAGNode → ActionType
  | .mk t _ _ _ _ _ => t

/-- The node's `result_name`. -/
def DAGNode.result_name : DAGNode → String
  | .mk _ n _ _ _ _ => n

/-- The node's `result_type`. -/
def DAGNode.result_type : DAGNode → DataType
  | .mk _ _ ty _ _ _ => ty

/-- The node's `column` pointer (`none` models a null pointer). -/
def DAGNode.column : DAGNode → Option IColumn
  | .mk _ _ _ c _ _ => c

/-- The node's children. -/
def DAGNode.children : DAGNode → List DAGNode
  | .mk _ _ _ _ cs _ => cs

/-- The node's `function_base->getName()`. -/
def DAGNode.function_name : DAGNode → String
  | .mk _ _ _ _ _ f => f

/-- Errors modelling thrown C++ exceptions and undefined behaviour. -/
inductive RPNError where
  | logicalError : String → RPNError
  | badCast : RPNError
  | nullDeref : RPNError
  | cannotGetField : RPNError
  | notFoundColumnInBlock : RPNError
deriving DecidableEq

mutual

/-- Translation of the anonymous-namespace `appendColumnNameWithoutAlias`
(`RPNBuilder.cpp` lines 32-79): the switch over the node's action type.
The error cases model `children.front()` on an empty children vector
(ALIAS/ARRAY_JOIN), a null `column` on a COLUMN node, and
`ColumnConst::getField` on a wrapped set column. -/
def appendColumnNameWithoutAlias (node : DAGNode) (legacy : Bool) : Except RPNError String :=
  match node with
  | .mk t rname _ col cs fname =>
    match t with
    | .INPUT => .ok rname
    | .COLUMN =>
      match col with
      | some (.const data) =>
        match data.at0 with
        | some f => .ok (fieldToString f)
        | none => .error .cannotGetField
      | some (.plain _) => .ok rname
      | none => .error .nullDeref
    | .ALIAS =>
      match cs with
      | c :: _ => appendColumnNameWithoutAlias c legacy
      | [] => .error .nullDeref
    | .ARRAY_JOIN =>
      match cs with
      | c :: _ =>
        match appendColumnNameWithoutAlias c legacy with
        | .ok s => .ok ("arrayJoin(" ++ s ++ ")")
        | .error e => .error e
      | [] => .error .nullDeref
    | .FUNCTION =>
      let name := if legacy && fname == "modulo" then "moduleLegacy" else fname
      match appendColumnNameList cs legacy with
      | .ok s => .ok (name ++ "(" ++ s ++ ")")
      | .error e => .error e

/-- Comma-joined rendering of a FUNCTION node's children (the `first` /
`", "` loop of the FUNCTION case). -/
def appendColumnNameList (nodes : List DAGNode) (legacy : Bool) : Except RPNError String :=
  match nodes with
  | [] => .ok ""
  | [c] => appendColumnNameWithoutAlias c legacy
  | c :: d :: rest =>
    match appendColumnNameWithoutAlias c legacy with
    | .ok s =>
      match appendColumnNameList (d :: rest) legacy with
      | .ok r => .ok (s ++ ", " ++ r)
      | .error e => .error e
    | .error e => .error e

end

mutual

/-- Statement-side helper: the recursive modulo-to-moduleLegacy renaming on a
DAG node — renames exactly the FUNCTION nodes whose function name is
`modulo`, recursively, leaving everything else unchanged. -/
def renameModuloDAG : DAGNode → DAGNode
  | .mk .INPUT rname ty col cs fname =>
    .mk .INPUT rname ty col (renameModuloDAGList cs) fname
  | .mk .COLUMN rname ty col cs fname =>
    .mk .COLUMN rname ty col (renameModuloDAGList cs) fname
  | .mk .ALIAS rname ty col cs fname =>
    .mk .ALIAS rname ty col (renameModuloDAGList cs) fname
  | .mk .ARRAY_JOIN rname ty col cs fname =>
    .mk .ARRAY_JOIN rname ty col (renameModuloDAGList cs) fname
  | .mk .FUNCTION rname ty col cs fname =>
    .mk .FUNCTION rname ty col (renameModuloDAGList cs)
      (if fname == "modulo" then "moduleLegacy" else fname)

/-- Pointwise renaming of a children list. -/
def renameModuloDAGList : List DAGNode → List DAGNode
  | [] => []
  | c :: rest => renameModuloDAG c :: renameModuloDAGList rest

end

mutual

/-- Statement-side helper: whether a DAG node contains a `modulo` function
application anywhere. -/
def containsModuloDAG : DAGNode → Bool
  | .mk .FUNCTION _ _ _ cs fname => fname == "modulo" || containsModuloDAGList cs
  | .mk .INPUT _ _ _ cs _ => containsModuloDAGList cs
  | .mk .COLUMN _ _ _ cs _ => containsModuloDAGList cs
  | .mk .ALIAS _ _ _ cs _ => containsModuloDAGList cs
  | .mk .ARRAY_JOIN _ _ _ cs _ => containsModuloDAGList cs

/-- Whether any node of a children list contains a `modulo` application. -/
def containsModuloDAGList : List DAGNode → Bool
  | [] => false
  | c :: rest => containsModuloDAG c || containsModuloDAGList rest

end

/-- Models `PreparedSetKey` (external): a subquery key or a literal key
combining the expression's structural hash with the left-hand-side types. -/
inductive PreparedSetKey where
  | forSubquery : Nat → PreparedSetKey
  | forLiteral : Nat → List DataType → PreparedSetKey
deriving DecidableEq

/-- The structural hash stored in a key. -/
def PreparedSetKey.astHash : PreparedSetKey → Nat
  | .forSubquery h => h
  | .forLiteral h _ => h

/-- Models `PreparedSets` (external): the registry of precomputed membership
sets, keyed by `PreparedSetKey`. -/
structure PreparedSets where
  sets : List (PreparedSetKey × PreparedSet)
deriving DecidableEq

/-- Modelled from the spec: `PreparedSets::getByTreeHash` (external) scans all
registry entries whose key carries the given structural hash. -/
def PreparedSets.getByTreeHash (ps : PreparedSets) (h : Nat) : List PreparedSet :=
  (ps.sets.filter (fun e => e.1.astHash == h)).map (fun e => e.2)

/-- Modelled from the spec: `PreparedSets::get` (external) locates the set
registered under exactly the given key. -/
def PreparedSets.get (ps : PreparedSets) (k : PreparedSetKey) : Option PreparedSet :=
  (ps.sets.find? (fun e => e.1 == k)).map (fun e => e.2)

/-- Models `MergeTreeSetIndex::KeyTuplePositionMapping` (the fields used
here). -/
structure KeyTuplePositionMapping where
  tuple_index : Nat
  key_index : Nat
deriving DecidableEq

/-- Models `RPNBuilderTreeContext` (the fields the claims need: the constant
block and the possibly-null prepared-set registry). -/
structure RPNBuilderTreeContext where
  block_with_constants : Block
  prepared_sets : Option PreparedSets

/-- Models `RPNBuilderTreeNode`: exactly one of the two representation
pointers is set (the constructors assert the chosen pointer is non-null). -/
inductive RPNBuilderTreeNode where
  | ofAST : AST → RPNBuilderTreeNode
  | ofDAG : DAGNode → RPNBuilderTreeNode

/-- Translation of `RPNBuilderTreeNode::getColumnName`
(`RPNBuilder.cpp` lines 114-120). -/
def RPNBuilderTreeNode.getColumnName : RPNBuilderTreeNode → Except RPNError String
  | .ofAST a => .ok a.getColumnNameWithoutAlias
  | .ofDAG d => appendColumnNameWithoutAlias d false

/-- Translation of `RPNBuilderTreeNode::getColumnNameWithModuloLegacy`
(`RPNBuilder.cpp` lines 122-134): the AST branch clones the tree, rewrites
`modulo` calls to the legacy name and takes the alias-stripped name; the DAG
branch passes `legacy = true`. -/
def RPNBuilderTreeNode.getColumnNameWithModuloLegacy :
    RPNBuilderTreeNode → Except RPNError String
  | .ofAST a => .ok (moduloToModuloLegacyRecursive a).getColumnNameWithoutAlias
  | .ofDAG d => appendColumnNameWithoutAlias d true

/-- Translation of `RPNBuilderTreeNode::isConstant`
(`RPNBuilder.cpp` lines 144-164). The C++ pair `block.has(name) &&
isColumnConst(*block.getByName(name).column)` is a single lookup here:
`has` is true exactly when `getByName` finds an entry (same predicate over
the same list). -/
def RPNBuilderTreeNode.isConstant (node : RPNBuilderTreeNode)
    (ctx : RPNBuilderTreeContext) : Bool :=
  match node with
  | .ofAST a =>
    if a.isLiteral then
      true
    else
      let column_name := a.getColumnName
      match ctx.block_with_constants.getByName column_name with
      | some entry => isColumnConst entry.column
      | none => false
  | .ofDAG d =>
    match d.column with
    | some c => isColumnConst c
    | none => false

/-- Translation of `RPNBuilderTreeNode::getConstantColumn`
(`RPNBuilder.cpp` lines 166-196). The AST branch performs
`assert_cast<const ASTLiteral *>(ast_node)`, which validates the dynamic type
and fails on a non-literal node (debug builds raise a logical error; release
builds are undefined behaviour) — modelled as `.error .badCast` — so the
constant-block lookup written after it (lines 184-187) is unreachable. -/
def RPNBuilderTreeNode.getConstantColumn (node : RPNBuilderTreeNode)
    (ctx : RPNBuilderTreeContext) : Except RPNError ColumnWithTypeAndName :=
  if !node.isConstant ctx then
    .error (.logicalError "RPNBuilderTree node is not a constant")
  else
    match node with
    | .ofAST a =>
      match a with
      | .literal v _ =>
        let ty := fieldToDataType v
        .ok ⟨IColumn.const (.fields [v]), ty, ""⟩
      | _ => .error .badCast
    | .ofDAG d =>
      match d.column with
      | some c => .ok ⟨c, d.result_type, d.result_name⟩
      | none => .error .nullDeref

/-- Translation of `RPNBuilderTreeNode::tryGetConstant`
(`RPNBuilder.cpp` lines 198-253). Result `.ok (found, value, type)` carries
the returned flag and the final state of the two output parameters; `.error`
models a thrown exception (`Block::getByName` on a block holding neither the
literal's column name nor `"_dummy"`; row-0 access on an empty column). In
the C++ the literal branch assigns `output_value` before the type lookup, so
on the throwing path the value output may already be clobbered — observable
only on `.error` results, which carry no output state here. -/
def RPNBuilderTreeNode.tryGetConstant (node : RPNBuilderTreeNode)
    (ctx : RPNBuilderTreeContext) (value : Field) (type : DataType) :
    Except RPNError (Bool × Field × DataType) :=
  match node with
  | .ofAST a =>
    let column_name := a.getColumnName
    let block := ctx.block_with_constants
    match a with
    | .literal v _ =>
      let column_name := if block.has column_name then column_name else "_dummy"
      match block.getByName column_name with
      | none => .error .notFoundColumnInBlock
      | some entry =>
        let output_value := v
        let output_type := entry.type
        let output_type :=
          if !output_value.isNull then removeNullable output_type else output_type
        .ok (true, output_value, output_type)
    | _ =>
      if block.has column_name then
        match block.getByName column_name with
        | some entry =>
          if isColumnConst entry.column then
            match entry.column.at0 with
            | some output_value =>
              let output_type := entry.type
              let output_type :=
                if !output_value.isNull then removeNullable output_type else output_type
              .ok (true, output_value, output_type)
            | none => .error .cannotGetField
          else
            .ok (false, value, type)
        | none => .ok (false, value, type)
      else
        .ok (false, value, type)
  | .ofDAG d =>
    match d.column with
    | some c =>
      if isColumnConst c then
        match c.at0 with
        | some output_value =>
          let output_type := d.result_type
          let output_type :=
            if !output_value.isNull then removeNullable output_type else output_type
          .ok (true, output_value, output_type)
        | none => .error .cannotGetField
      else
        .ok (false, value, type)
    | none => .ok (false, value, type)

/-- Statement-side helper: the stored/declared type `tryGetConstant` reads on
each branch — the constant-block entry's type under the resolved name for a
syntax-tree node (with the `"_dummy"` fallback for literals), the node's
`result_type` for an action-graph node. -/
def declaredType (node : RPNBuilderTreeNode) (ctx : RPNBuilderTreeContext) :
    Option DataType :=
  match node with
  | .ofAST a =>
    let column_name := a.getColumnName
    let block := ctx.block_with_constants
    match a with
    | .literal _ _ =>
      let column_name := if block.has column_name then column_name else "_dummy"
      (block.getByName column_name).map (fun e => e.type)
    | _ => (block.getByName column_name).map (fun e => e.type)
  | .ofDAG d => some d.result_type

/-- Translation of the anonymous-namespace `tryGetSetFromDAGNode`
(`RPNBuilder.cpp` lines 258-276): unwrap a `ColumnConst` wrapper if present,
and return the set of a materialized-set column only when it is created. -/
def tryGetSetFromDAGNode (d : DAGNode) : Option PreparedSet :=
  match d.column with
  | none => none
  | some c =>
    let data := match c with
      | .const data => data
      | .plain data => data
    match data with
    | .setData s => if s.isCreated then some s else none
    | .fields _ => none

/-- Translation of the first `RPNBuilderTreeNode::tryGetPreparedSet` overload
(`RPNBuilder.cpp` lines 280-297): for a syntax-tree node with a registry,
scan the same-hash entries for the first created set; otherwise inspect the
action-graph node's own column. -/
def RPNBuilderTreeNode.tryGetPreparedSet (node : RPNBuilderTreeNode)
    (ctx : RPNBuilderTreeContext) : Option PreparedSet :=
  match node, ctx.prepared_sets with
  | .ofAST a, some ps =>
    (ps.getByTreeHash a.treeHash).find? (fun s => s.isCreated)
  | .ofDAG d, _ => tryGetSetFromDAGNode d
  | .ofAST _, none => none

/-- Translation of the second `RPNBuilderTreeNode::tryGetPreparedSet` overload
(`RPNBuilder.cpp` lines 299-316): key-based lookup (subquery key for
subquery / table-reference nodes, literal key otherwise); action-graph nodes
fall back to column inspection. -/
def RPNBuilderTreeNode.tryGetPreparedSetWithTypes (node : RPNBuilderTreeNode)
    (ctx : RPNBuilderTreeContext) (data_types : List DataType) : Option PreparedSet :=
  match ctx.prepared_sets, node with
  | some ps, .ofAST a =>
    if a.isSubqueryOrTableIdentifier then
      ps.get (.forSubquery a.treeHash)
    else
      ps.get (.forLiteral a.treeHash data_types)
  | _, .ofDAG d => tryGetSetFromDAGNode d
  | none, .ofAST _ => none

/-- Translation of the `types_match` lambda of the third overload
(`RPNBuilder.cpp` lines 333-344): every position of the key-position mapping
must have the candidate set's element type at that tuple index equal to the
expected type (out-of-range access of `data_types`, undefined in C++ when the
asserted length equality fails, yields `false` here). -/
def typesMatch (indexes_mapping : List KeyTuplePositionMapping)
    (data_types : List DataType) (candidate_set : PreparedSet) : Bool :=
  (List.range indexes_mapping.length).all fun i =>
    match indexes_mapping[i]?, data_types[i]? with
    | some m, some t => candidate_set.areTypesEqual m.tuple_index t
    | _, _ => false

/-- Translation of the third `RPNBuilderTreeNode::tryGetPreparedSet` overload
(`RPNBuilder.cpp` lines 318-359). Note the final branch is
`else if (dag_node->column)`: when the node is a syntax-tree node and the
context has no registry, `dag_node` is null and the C++ dereferences it —
modelled as `.error .nullDeref`. -/
def RPNBuilderTreeNode.tryGetPreparedSetWithMapping (node : RPNBuilderTreeNode)
    (ctx : RPNBuilderTreeContext)
    (indexes_mapping : List KeyTuplePositionMapping)
    (data_types : List DataType) : Except RPNError (Option PreparedSet) :=
  match ctx.prepared_sets, node with
  | some ps, .ofAST a =>
    if a.isSubqueryOrTableIdentifier then
      .ok (ps.get (.forSubquery a.treeHash))
    else
      match (ps.getByTreeHash a.treeHash).find? (typesMatch indexes_mapping data_types) with
      | some s => .ok (some s)
      | none => .ok none
  | _, .ofDAG d =>
    if d.column.isSome then .ok (tryGetSetFromDAGNode d) else .ok none
  | none, .ofAST _ => .error .nullDeref

/-- Expressions constructible in both representations: input references,
literals, function applications, alias wrappings and array expansion. -/
inductive Expr where
  | column : String → Expr
  | lit : Field → Expr
  | app : String → List Expr → Expr
  | aliased : String → Expr → Expr
  | arrayJoin : Expr → Expr

/-- Placeholder result type for constructed DAG nodes (canonical naming never
reads it). -/
def someType : DataType := ⟨"UInt8", false⟩

mutual

/-- Realizes an expression as a syntax-tree node (array expansion is the
`arrayJoin` function call in the parsed tree). -/
def toAST : Expr → AST
  | .column n => .identifier n ""
  | .lit v => .literal v ""
  | .app f args => .function f (toASTList args) ""
  | .aliased s e => (toAST e).setAlias s
  | .arrayJoin e => .function "arrayJoin" [toAST e] ""

/-- Pointwise realization of an argument list as syntax-tree nodes. -/
def toASTList : List Expr → List AST
  | [] => []
  | e :: rest => toAST e :: toASTList rest

end

mutual

/-- Realizes an expression as a compiled action-graph node (a literal becomes
a COLUMN node whose column is a `ColumnConst`, whose `result_name` may be an
arbitrary alias). -/
def toDAG : Expr → DAGNode
  | .column n => .mk .INPUT n someType none [] ""
  | .lit v => .mk .COLUMN "some_alias" someType (some (.const (.fields [v]))) [] ""
  | .app f args => .mk .FUNCTION "" someType none (toDAGList args) f
  | .aliased s e => .mk .ALIAS s someType none [toDAG e] ""
  | .arrayJoin e => .mk .ARRAY_JOIN "" someType none [toDAG e] ""

/-- Pointwise realization of an argument list as action-graph nodes. -/
def toDAGList : List Expr → List DAGNode
  | [] => []
  | e :: rest => toDAG e :: toDAGList rest

end

/-- Setting an alias never changes the alias-stripped canonical name of a
syntax-tree node. -/
theorem setAlias_name_aux (s : String) (a : AST) :
    (a.setAlias s).getColumnNameWithoutAlias = a.getColumnNameWithoutAlias := by
  cases a <;> rfl

/-- String normalization for the array-expansion rendering. -/
theorem arrayJoin_prefix_aux (s : String) :
    "arrayJoin" ++ "(" ++ s ++ ")" = "arrayJoin(" ++ s ++ ")" := by
  rw [show ("arrayJoin" ++ "(" : String) = "arrayJoin(" from rfl]

mutual

/-- Canonical naming agrees across the two realizations of an expression. -/
theorem toDAG_name_equiv_aux (e : Expr) :
    appendColumnNameWithoutAlias (toDAG e) false =
      .ok (AST.getColumnNameWithoutAlias (toAST e)) := by
  match e with
  | .column n => rfl
  | .lit v => rfl
  | .app f args =>
    simp only [toDAG, toAST, appendColumnNameWithoutAlias,
      toDAG_name_equiv_list_aux args, AST.getColumnNameWithoutAlias]
    simp
  | .aliased s e1 =>
    simp only [toDAG, toAST, appendColumnNameWithoutAlias,
      toDAG_name_equiv_aux e1, setAlias_name_aux]
  | .arrayJoin e1 =>
    simp only [toDAG, toAST, appendColumnNameWithoutAlias,
      toDAG_name_equiv_aux e1, AST.getColumnNameWithoutAlias,
      astColumnNameListWithoutAlias, arrayJoin_prefix_aux]

/-- Canonical naming of argument lists agrees across the two realizations. -/
theorem toDAG_name_equiv_list_aux (es : List Expr) :
    appendColumnNameList (toDAGList es) false =
      .ok (astColumnNameListWithoutAlias (toASTList es)) := by
  match es with
  | [] => rfl
  | [e] =>
    simp only [toDAGList, toASTList, appendColumnNameList,
      astColumnNameListWithoutAlias, toDAG_name_equiv_aux e]
  | e :: f :: rest =>
    have hl := toDAG_name_equiv_list_aux (f :: rest)
    simp only [toDAGList, toASTList] at hl
    simp only [toDAGList, toASTList, appendColumnNameList,
      astColumnNameListWithoutAlias, toDAG_name_equiv_aux e, hl]

end

mutual

/-- Legacy-mode naming of a DAG node equals default-mode naming of the
modulo-renamed node. -/
theorem legacy_rename_aux (n : DAGNode) :
    appendColumnNameWithoutAlias n true =
      appendColumnNameWithoutAlias (renameModuloDAG n) false := by
  match n with
  | .mk t rname ty col cs fname =>
    match t with
    | .INPUT => rfl
    | .COLUMN => rfl
    | .ALIAS =>
      match cs with
      | [] => rfl
      | c :: rest =>
        simp only [renameModuloDAG, renameModuloDAGList, appendColumnNameWithoutAlias]
        exact legacy_rename_aux c
    | .ARRAY_JOIN =>
      match cs with
      | [] => rfl
      | c :: rest =>
        simp only [renameModuloDAG, renameModuloDAGList, appendColumnNameWithoutAlias,
          legacy_rename_aux c]
    | .FUNCTION =>
      simp only [renameModuloDAG, appendColumnNameWithoutAlias, legacy_rename_list_aux cs]
      cases h : fname == "modulo" <;> simp [h]

/-- Legacy-mode naming of a children list equals default-mode naming of the
modulo-renamed list. -/
theorem legacy_rename_list_aux (l : List DAGNode) :
    appendColumnNameList l true = appendColumnNameList (renameModuloDAGList l) false := by
  match l with
  | [] => rfl
  | [c] =>
    simp only [renameModuloDAGList, appendColumnNameList]
    exact legacy_rename_aux c
  | c :: d :: rest =>
    have hl := legacy_rename_list_aux (d :: rest)
    simp only [renameModuloDAGList] at hl
    simp only [renameModuloDAGList, appendColumnNameList, legacy_rename_aux c, hl]

end

mutual

/-- A node containing no `modulo` application is unchanged by the renaming. -/
theorem noModulo_rename_id_aux (n : DAGNode) :
    containsModuloDAG n = false → renameModuloDAG n = n := by
  match n with
  | .mk .FUNCTION rname ty col cs fname =>
    intro h
    rw [containsModuloDAG] at h
    simp only [Bool.or_eq_false_iff] at h
    rw [renameModuloDAG, noModulo_rename_list_id_aux cs h.2]
    simp [h.1]
  | .mk .INPUT rname ty col cs fname =>
    intro h
    rw [containsModuloDAG] at h
    rw [renameModuloDAG, noModulo_rename_list_id_aux cs h]
  | .mk .COLUMN rname ty col cs fname =>
    intro h
    rw [containsModuloDAG] at h
    rw [renameModuloDAG, noModulo_rename_list_id_aux cs h]
  | .mk .ALIAS rname ty col cs fname =>
    intro h
    rw [containsModuloDAG] at h
    rw [renameModuloDAG, noModulo_rename_list_id_aux cs h]
  | .mk .ARRAY_JOIN rname ty col cs fname =>
    intro h
    rw [containsModuloDAG] at h
    rw [renameModuloDAG, noModulo_rename_list_id_aux cs h]

/-- A children list containing no `modulo` application is unchanged by the
renaming. -/
theorem noModulo_rename_list_id_aux (l : List DAGNode) :
    containsModuloDAGList l = false → renameModuloDAGList l = l := by
  match l with
  | [] => intro _; rfl
  | c :: rest =>
    intro h
    rw [containsModuloDAGList] at h
    rw [renameModuloDAGList]
    simp only [Bool.or_eq_false_iff] at h
    rw [noModulo_rename_id_aux c h.1, noModulo_rename_list_id_aux rest h.2]

end

/-- Claim C4: for every expression constructible in both representations, the
canonical name (`getColumnName`) computed from the syntax-tree node and the
one computed from the action-graph node are textually identical strings in
default (non-legacy) mode. -/
theorem claim_C4_representation_equivalence (e : Expr) :
    RPNBuilderTreeNode.getColumnName (.ofDAG (toDAG e)) =
      RPNBuilderTreeNode.getColumnName (.ofAST (toAST e)) := by
  simp only [RPNBuilderTreeNode.getColumnName, toDAG_name_equiv_aux e]

/-- Claim C7: legacy-mode canonical naming renames every `modulo` function
application to `moduleLegacy`, recursively, leaving every other function name
unchanged (equivalently, it names the modulo-renamed tree in default mode);
default mode never performs the substitution (on a modulo-free tree the two
modes agree); and this holds in both representations (the syntax-tree branch
delegates to the recursive rewrite `moduloToModuloLegacyRecursive`). -/
theorem claim_C7_legacy_renaming :
    (∀ n : DAGNode,
      appendColumnNameWithoutAlias n true =
        appendColumnNameWithoutAlias (renameModuloDAG n) false) ∧
    (∀ a : AST,
      RPNBuilderTreeNode.getColumnNameWithModuloLegacy (.ofAST a) =
        .ok (moduloToModuloLegacyRecursive a).getColumnNameWithoutAlias) ∧
    (∀ n : DAGNode, containsModuloDAG n = false →
      appendColumnNameWithoutAlias n true = appendColumnNameWithoutAlias n false) := by
  refine ⟨legacy_rename_aux, fun a => rfl, fun n h => ?_⟩
  rw [legacy_rename_aux n, noModulo_rename_id_aux n h]

/-- Witness for claim C7 at a concrete modulo-free function node. -/
theorem claim_C7_legacy_renaming_witness :
    containsModuloDAG (.mk .FUNCTION "" someType none [] "plus") = false ∧
      appendColumnNameWithoutAlias (.mk .FUNCTION "" someType none [] "plus") true =
        appendColumnNameWithoutAlias (.mk .FUNCTION "" someType none [] "plus") false :=
  ⟨rfl, claim_C7_legacy_renaming.2.2 (.mk .FUNCTION "" someType none [] "plus") rfl⟩

/-- Claim C8: wrapping any expression in an alias never changes its canonical
name, in both representations and in both default and legacy modes (on the
syntax tree, legacy naming goes through `moduloToModuloLegacyRecursive`,
which preserves the alias field). -/
theorem claim_C8_alias_transparency :
    (∀ (child : DAGNode) (rname : String) (ty : DataType) (col : Option IColumn)
        (rest : List DAGNode) (fname : String) (legacy : Bool),
      appendColumnNameWithoutAlias (.mk .ALIAS rname ty col (child :: rest) fname) legacy =
        appendColumnNameWithoutAlias child legacy) ∧
    (∀ (a : AST) (s : String),
      (a.setAlias s).getColumnNameWithoutAlias = a.getColumnNameWithoutAlias) ∧
    (∀ (a : AST) (s : String),
      (moduloToModuloLegacyRecursive (a.setAlias s)).getColumnNameWithoutAlias =
        (moduloToModuloLegacyRecursive a).getColumnNameWithoutAlias) := by
  refine ⟨fun child rname ty col rest fname legacy => rfl,
    fun a s => setAlias_name_aux s a, fun a s => ?_⟩
  cases a <;>
    simp [moduloToModuloLegacyRecursive, AST.setAlias, AST.getColumnNameWithoutAlias]

/-- On every path of `tryGetConstant` that returns `false`, the two output
parameters are returned exactly as passed. -/
theorem tryGetConstant_false_frame_aux (node : RPNBuilderTreeNode)
    (ctx : RPNBuilderTreeContext) (v v2 : Field) (t t2 : DataType)
    (h : node.tryGetConstant ctx v t = .ok (false, v2, t2)) : v2 = v ∧ t2 = t := by
  cases node with
  | ofAST a =>
    cases a <;>
      (simp only [RPNBuilderTreeNode.tryGetConstant] at h
       repeat' split at h
       all_goals simp_all)
  | ofDAG d =>
    simp only [RPNBuilderTreeNode.tryGetConstant] at h
    repeat' split at h
    all_goals simp_all

/-- Unfolding lemma for `Block.getByName`. -/
theorem block_getByName_def (b : Block) (n : String) :
    Block.getByName b n = List.find? (fun c => c.name == n) b := rfl

/-- Unfolding lemma for `Block.wellFormed`. -/
theorem block_wellFormed_def (b : Block) :
    Block.wellFormed b = List.all b (fun c => (IColumn.at0 c.column).isSome) := rfl

/-- On a well-formed constant block, `tryGetConstant` on a non-literal
syntax-tree node never throws. -/
theorem tryGetConstant_nonliteral_total_aux (a : AST) (ctx : RPNBuilderTreeContext)
    (v : Field) (t : DataType) (hlit : a.isLiteral = false)
    (hwf : Block.wellFormed ctx.block_with_constants = true) :
    ∃ r, RPNBuilderTreeNode.tryGetConstant (.ofAST a) ctx v t = .ok r := by
  have hok : (RPNBuilderTreeNode.tryGetConstant (.ofAST a) ctx v t).isOk = true := by
    cases a
    case literal w al => simp [AST.isLiteral] at hlit
    all_goals
      (simp only [RPNBuilderTreeNode.tryGetConstant]
       split
       · split
         · split
           · split
             · rfl
             · rename_i entry heq hcc hx hov
               rw [block_wellFormed_def] at hwf
               rw [block_getByName_def] at heq
               have hmem := List.mem_of_find?_eq_some heq
               have hsome := List.all_eq_true.mp hwf entry hmem
               simp only [hov, Option.isSome] at hsome
               exact absurd hsome (by simp)
           · rfl
         · rfl
       · rfl)
  cases hres : RPNBuilderTreeNode.tryGetConstant (.ofAST a) ctx v t with
  | ok r => exact ⟨r, rfl⟩
  | error e => rw [hres] at hok; simp [Except.isOk, Except.toBool] at hok

/-- On an action-graph node whose column (if any) has a defined row 0,
`tryGetConstant` never throws. -/
theorem tryGetConstant_dag_total_aux (d : DAGNode) (ctx : RPNBuilderTreeContext)
    (v : Field) (t : DataType)
    (hcol : ∀ c, d.column = some c → (IColumn.at0 c).isSome = true) :
    ∃ r, RPNBuilderTreeNode.tryGetConstant (.ofDAG d) ctx v t = .ok r := by
  have hok : (RPNBuilderTreeNode.tryGetConstant (.ofDAG d) ctx v t).isOk = true := by
    simp only [RPNBuilderTreeNode.tryGetConstant]
    split
    · rename_i c hc
      split
      · split
        · rfl
        · rename_i hov
          have hsome := hcol c hc
          simp only [hov, Option.isSome] at hsome
          exact absurd hsome (by simp)
      · rfl
    · rfl
  cases hres : RPNBuilderTreeNode.tryGetConstant (.ofDAG d) ctx v t with
  | ok r => exact ⟨r, rfl⟩
  | error e => rw [hres] at hok; simp [Except.isOk, Except.toBool] at hok

/-- Claim C10: whenever `tryGetConstant` returns `false`, both output
parameters are exactly as the caller passed them, and no exception is thrown;
absence of a constant is never an error (a non-literal syntax-tree node over
a well-formed constant block, and an action-graph node with a well-formed
column, always yield an `ok` result). -/
theorem claim_C10_failure_frame :
    (∀ (node : RPNBuilderTreeNode) (ctx : RPNBuilderTreeContext) (v v2 : Field)
        (t t2 : DataType),
      node.tryGetConstant ctx v t = .ok (false, v2, t2) → v2 = v ∧ t2 = t) ∧
    (∀ (a : AST) (ctx : RPNBuilderTreeContext) (v : Field) (t : DataType),
      a.isLiteral = false →
      Block.wellFormed ctx.block_with_constants = true →
      ∃ r, RPNBuilderTreeNode.tryGetConstant (.ofAST a) ctx v t = .ok r) ∧
    (∀ (d : DAGNode) (ctx : RPNBuilderTreeContext) (v : Field) (t : DataType),
      (∀ c, d.column = some c → (IColumn.at0 c).isSome = true) →
      ∃ r, RPNBuilderTreeNode.tryGetConstant (.ofDAG d) ctx v t = .ok r) :=
  ⟨tryGetConstant_false_frame_aux,
   fun a ctx v t h1 h2 => tryGetConstant_nonliteral_total_aux a ctx v t h1 h2,
   fun d ctx v t h1 => tryGetConstant_dag_total_aux d ctx v t h1⟩

/-- Witness for claim C10: a column-less action-graph node yields
`ok (false, value, type)` with the outputs returned unchanged. -/
theorem claim_C10_failure_frame_witness :
    RPNBuilderTreeNode.tryGetConstant (.ofDAG (.mk .INPUT "x" ⟨"UInt8", false⟩ none [] ""))
        ⟨[], none⟩ .null ⟨"String", false⟩ = .ok (false, .null, ⟨"String", false⟩) ∧
      (Field.null = Field.null ∧ (⟨"String", false⟩ : DataType) = ⟨"String", false⟩) :=
  ⟨rfl, claim_C10_failure_frame.1 (.ofDAG (.mk .INPUT "x" ⟨"UInt8", false⟩ none [] ""))
    ⟨[], none⟩ .null .null ⟨"String", false⟩ ⟨"String", false⟩ rfl⟩

/-- Claim C9: whenever `tryGetConstant` succeeds, the returned type is the
stored/declared type with its nullability wrapper removed if the extracted
value is non-null, and the stored/declared type unchanged if the value is
null; in particular a non-null extraction never returns a nullable type.
This holds on every success path (syntax-tree literal, constant-block lookup,
action-graph constant column). -/
theorem claim_C9_nullability_collapse (node : RPNBuilderTreeNode)
    (ctx : RPNBuilderTreeContext) (v v2 : Field) (t t2 : DataType)
    (h : node.tryGetConstant ctx v t = .ok (true, v2, t2)) :
    ∃ t0, declaredType node ctx = some t0 ∧
      t2 = (if v2.isNull then t0 else removeNullable t0) ∧
      (v2.isNull = false → t2.nullable = false) := by
  cases node with
  | ofAST a =>
    cases a
    case literal w al =>
      simp only [RPNBuilderTreeNode.tryGetConstant] at h
      split at h
      · simp at h
      · rename_i entry heq
        simp only [Except.ok.injEq, Prod.mk.injEq, true_and] at h
        obtain ⟨hval, hty⟩ := h
        subst hval
        subst hty
        refine ⟨entry.type, ?_, ?_, ?_⟩
        · simp only [declaredType]
          rw [heq]
          rfl
        · cases hnull : Field.isNull w <;> simp [hnull]
        · intro hnf
          simp [hnf, removeNullable]
    all_goals
      (simp only [RPNBuilderTreeNode.tryGetConstant] at h
       split at h
       · split at h
         · rename_i entry heq
           split at h
           · split at h
             · rename_i ov hov
               simp only [Except.ok.injEq, Prod.mk.injEq, true_and] at h
               obtain ⟨hval, hty⟩ := h
               subst hval
               subst hty
               refine ⟨entry.type, ?_, ?_, ?_⟩
               · simp only [declaredType]
                 rw [heq]
                 rfl
               · cases hnull : Field.isNull ov <;> simp [hnull]
               · intro hnf
                 simp [hnf, removeNullable]
             · simp at h
           · simp at h
         · simp at h
       · simp at h)
  | ofDAG d =>
    simp only [RPNBuilderTreeNode.tryGetConstant] at h
    split at h
    · rename_i c hc
      split at h
      · split at h
        · rename_i ov hov
          simp only [Except.ok.injEq, Prod.mk.injEq, true_and] at h
          obtain ⟨hval, hty⟩ := h
          subst hval
          subst hty
          refine ⟨d.result_type, rfl, ?_, ?_⟩
          · cases hnull : Field.isNull ov <;> simp [hnull]
          · intro hnf
            simp [hnf, removeNullable]
        · simp at h
      · simp at h
    · simp at h

/-- Witness for claim C9 at a concrete action-graph constant column holding a
non-null value with a nullable declared type. -/
theorem claim_C9_nullability_collapse_witness :
    RPNBuilderTreeNode.tryGetConstant
        (.ofDAG (.mk .COLUMN "c" ⟨"Int64", true⟩ (some (.const (.fields [.int 5]))) [] ""))
        ⟨[], none⟩ .null ⟨"String", false⟩ = .ok (true, .int 5, ⟨"Int64", false⟩) ∧
      ∃ t0,
        declaredType
            (.ofDAG (.mk .COLUMN "c" ⟨"Int64", true⟩ (some (.const (.fields [.int 5]))) [] ""))
            ⟨[], none⟩ = some t0 ∧
          (⟨"Int64", false⟩ : DataType) =
            (if (Field.int 5).isNull then t0 else removeNullable t0) ∧
          ((Field.int 5).isNull = false → (⟨"Int64", false⟩ : DataType).nullable = false) :=
  ⟨rfl, claim_C9_nullability_collapse
    (.ofDAG (.mk .COLUMN "c" ⟨"Int64", true⟩ (some (.const (.fields [.int 5]))) [] ""))
    ⟨[], none⟩ .null (.int 5) ⟨"String", false⟩ ⟨"Int64", false⟩ rfl⟩


/-- Counterexample for claim C2: the constant block holds only the default
`"_dummy"` constant entry, and the non-literal node `x` is not in the block;
the claimed fallback extraction does not happen — `tryGetConstant` returns
`false` with the outputs unchanged instead of extracting the `"_dummy"`
constant. -/
theorem claim_C2_counterexample :
    Block.has [⟨IColumn.const (.fields [.int 9]), ⟨"UInt64", false⟩, "_dummy"⟩] "_dummy" = true ∧
      isColumnConst
        (IColumn.const (.fields [.int 9])) = true ∧
      RPNBuilderTreeNode.tryGetConstant (.ofAST (.identifier "x" ""))
          ⟨[⟨IColumn.const (.fields [.int 9]), ⟨"UInt64", false⟩, "_dummy"⟩], none⟩
          .null ⟨"String", false⟩ =
        .ok (false, .null, ⟨"String", false⟩) :=
  ⟨rfl, rfl, rfl⟩

/-- Claim C2 (amended): in `tryGetConstant` on a syntax-tree node, literal
nodes are special-cased directly, and it is the literal special-case's
constant-block lookup (which supplies the literal's type) that falls back to
the default key `"_dummy"` when the node's canonical name is absent — under
that fallback a constant is still successfully extracted; a non-literal
constant-block lookup has no fallback and yields `false` when the canonical
name is absent. -/
theorem claim_C2_dummy_fallback :
    (∀ (w : Field) (al : String) (ctx : RPNBuilderTreeContext) (v : Field) (t : DataType)
        (entry : ColumnWithTypeAndName),
      Block.has ctx.block_with_constants (AST.getColumnName (.literal w al)) = false →
      Block.getByName ctx.block_with_constants "_dummy" = some entry →
      RPNBuilderTreeNode.tryGetConstant (.ofAST (.literal w al)) ctx v t =
        .ok (true, w, if w.isNull then entry.type else removeNullable entry.type)) ∧
    (∀ (a : AST) (ctx : RPNBuilderTreeContext) (v : Field) (t : DataType),
      AST.isLiteral a = false →
      Block.has ctx.block_with_constants (AST.getColumnName a) = false →
      RPNBuilderTreeNode.tryGetConstant (.ofAST a) ctx v t = .ok (false, v, t)) := by
  constructor
  · intro w al ctx v t entry hhas hdummy
    simp only [RPNBuilderTreeNode.tryGetConstant, hhas, Bool.false_eq_true, if_false, hdummy]
    cases hnull : Field.isNull w <;> simp [hnull]
  · intro a ctx v t hlit hhas
    cases a
    case literal w al => simp [AST.isLiteral] at hlit
    all_goals simp [RPNBuilderTreeNode.tryGetConstant, hhas]

/-- Witness for claim C2 at a concrete block holding only `"_dummy"`. -/
theorem claim_C2_dummy_fallback_witness :
    (Block.has [⟨IColumn.const (.fields [.int 9]), ⟨"UInt64", true⟩, "_dummy"⟩]
        (AST.getColumnName (.literal (.int 3) "")) = false ∧
      Block.getByName [⟨IColumn.const (.fields [.int 9]), ⟨"UInt64", true⟩, "_dummy"⟩] "_dummy" =
        some ⟨IColumn.const (.fields [.int 9]), ⟨"UInt64", true⟩, "_dummy"⟩ ∧
      RPNBuilderTreeNode.tryGetConstant (.ofAST (.literal (.int 3) ""))
          ⟨[⟨IColumn.const (.fields [.int 9]), ⟨"UInt64", true⟩, "_dummy"⟩], none⟩
          .null ⟨"String", false⟩ =
        .ok (true, .int 3,
          if (Field.int 3).isNull then (⟨"UInt64", true⟩ : DataType)
          else removeNullable ⟨"UInt64", true⟩)) ∧
    (AST.isLiteral (.identifier "x" "") = false ∧
      Block.has [⟨IColumn.const (.fields [.int 9]), ⟨"UInt64", true⟩, "_dummy"⟩]
        (AST.getColumnName (.identifier "x" "")) = false ∧
      RPNBuilderTreeNode.tryGetConstant (.ofAST (.identifier "x" ""))
          ⟨[⟨IColumn.const (.fields [.int 9]), ⟨"UInt64", true⟩, "_dummy"⟩], none⟩
          .null ⟨"String", false⟩ =
        .ok (false, .null, ⟨"String", false⟩)) :=
  ⟨⟨rfl, rfl,
    claim_C2_dummy_fallback.1 (.int 3) ""
      ⟨[⟨IColumn.const (.fields [.int 9]), ⟨"UInt64", true⟩, "_dummy"⟩], none⟩
      .null ⟨"String", false⟩ ⟨IColumn.const (.fields [.int 9]), ⟨"UInt64", true⟩, "_dummy"⟩
      rfl rfl⟩,
   ⟨rfl, rfl,
    claim_C2_dummy_fallback.2 (.identifier "x" "")
      ⟨[⟨IColumn.const (.fields [.int 9]), ⟨"UInt64", true⟩, "_dummy"⟩], none⟩
      .null ⟨"String", false⟩ rfl rfl⟩⟩

/-- Claim C3 (code bug, evaluated at the failing input): a non-literal
syntax-tree node whose canonical name resolves to a constant column of the
block is a constant (`isConstant` is true), yet `getConstantColumn` performs
`assert_cast<const ASTLiteral *>` on it and fails with a bad cast instead of
returning the constant-block entry — the block lookup written after the cast
is dead code. -/
theorem claim_C3_nonliteral_constant_bad_cast :
    RPNBuilderTreeNode.isConstant (.ofAST (.identifier "x" ""))
        ⟨[⟨IColumn.const (.fields [.int 5]), ⟨"UInt8", false⟩, "x"⟩], none⟩ = true ∧
      RPNBuilderTreeNode.getConstantColumn (.ofAST (.identifier "x" ""))
        ⟨[⟨IColumn.const (.fields [.int 5]), ⟨"UInt8", false⟩, "x"⟩], none⟩ =
        .error .badCast :=
  ⟨rfl, rfl⟩

/-- Claim C6 (code bug, evaluated at the failing input): the third
`tryGetPreparedSet` overload ends in `else if (dag_node->column)`, so for a
syntax-tree node whose tree context holds no prepared-set registry it
dereferences the null `dag_node` pointer instead of returning empty (the
sibling overloads guard with `else if (dag_node)`); for an action-graph node
carrying no column it does return empty. -/
theorem claim_C6_null_deref_eval :
    RPNBuilderTreeNode.tryGetPreparedSetWithMapping (.ofAST (.identifier "x" ""))
        ⟨[], none⟩ [] [] = .error .nullDeref ∧
      RPNBuilderTreeNode.tryGetPreparedSetWithMapping
        (.ofDAG (.mk .INPUT "x" ⟨"UInt8", false⟩ none [] "")) ⟨[], some ⟨[]⟩⟩ [] [] =
        .ok none :=
  ⟨rfl, rfl⟩


/-- The DAG-column inspection returns only sets whose created flag is set. -/
theorem tryGetSetFromDAGNode_created_aux (d : DAGNode) (s : PreparedSet)
    (h : tryGetSetFromDAGNode d = some s) : s.isCreated = true := by
  simp only [tryGetSetFromDAGNode] at h
  repeat' split at h
  all_goals simp_all

/-- Counterexample for claim C1: a registry entry sharing the node's
structural hash whose per-position types match but whose created flag is
false is returned by the third overload's same-hash scan — the scan checks
only type compatibility, never readiness. -/
theorem claim_C1_counterexample :
    RPNBuilderTreeNode.tryGetPreparedSetWithMapping (.ofAST (.identifier "x" ""))
        ⟨[], some ⟨[(.forLiteral (AST.treeHash (.identifier "x" "")) [],
            ⟨[⟨"Int64", false⟩], false, 7⟩)]⟩⟩
        [⟨0, 0⟩] [⟨"Int64", false⟩] =
      .ok (some ⟨[⟨"Int64", false⟩], false, 7⟩) ∧
      PreparedSet.isCreated ⟨[⟨"Int64", false⟩], false, 7⟩ = false :=
  ⟨rfl, rfl⟩

/-- Claim C1 (amended): the first `tryGetPreparedSet` overload never returns
a set whose created flag is false, in either branch, and the action-graph
column inspection `tryGetSetFromDAGNode` — used by the action-graph paths of
all three overloads — never does either; the third overload's same-hash scan,
however, filters only by type compatibility and can return a non-ready set
(see the counterexample), and the second overload's key-based lookup
delegates readiness to the external registry. -/
theorem claim_C1_ready_gate :
    (∀ (node : RPNBuilderTreeNode) (ctx : RPNBuilderTreeContext) (s : PreparedSet),
      node.tryGetPreparedSet ctx = some s → s.isCreated = true) ∧
    (∀ (d : DAGNode) (s : PreparedSet),
      tryGetSetFromDAGNode d = some s → s.isCreated = true) ∧
    (∀ (d : DAGNode) (ctx : RPNBuilderTreeContext) (dts : List DataType) (s : PreparedSet),
      RPNBuilderTreeNode.tryGetPreparedSetWithTypes (.ofDAG d) ctx dts = some s →
        s.isCreated = true) ∧
    (∀ (d : DAGNode) (ctx : RPNBuilderTreeContext)
        (im : List KeyTuplePositionMapping) (dts : List DataType) (s : PreparedSet),
      RPNBuilderTreeNode.tryGetPreparedSetWithMapping (.ofDAG d) ctx im dts = .ok (some s) →
        s.isCreated = true) := by
  refine ⟨?_, tryGetSetFromDAGNode_created_aux, ?_, ?_⟩
  · intro node ctx s h
    cases node with
    | ofAST a =>
      obtain ⟨bk, ps⟩ := ctx
      cases ps with
      | none => simp [RPNBuilderTreeNode.tryGetPreparedSet] at h
      | some ps =>
        simp only [RPNBuilderTreeNode.tryGetPreparedSet] at h
        have := List.find?_some h
        simpa using this
    | ofDAG d =>
      simp only [RPNBuilderTreeNode.tryGetPreparedSet] at h
      exact tryGetSetFromDAGNode_created_aux d s h
  · intro d ctx dts s h
    obtain ⟨bk, ps⟩ := ctx
    cases ps <;>
      (simp only [RPNBuilderTreeNode.tryGetPreparedSetWithTypes] at h
       exact tryGetSetFromDAGNode_created_aux d s h)
  · intro d ctx im dts s h
    obtain ⟨bk, ps⟩ := ctx
    cases ps <;>
      (simp only [RPNBuilderTreeNode.tryGetPreparedSetWithMapping] at h
       split at h
       · simp only [Except.ok.injEq] at h
         exact tryGetSetFromDAGNode_created_aux d s h
       · simp at h)

/-- Witness for claim C1: the first overload at a registry holding one
created same-hash set returns that set, whose flag is indeed true. -/
theorem claim_C1_ready_gate_witness :
    RPNBuilderTreeNode.tryGetPreparedSet (.ofAST (.identifier "x" ""))
        ⟨[], some ⟨[(.forLiteral (AST.treeHash (.identifier "x" "")) [],
            ⟨[⟨"Int64", false⟩], true, 8⟩)]⟩⟩ =
      some ⟨[⟨"Int64", false⟩], true, 8⟩ ∧
      PreparedSet.isCreated ⟨[⟨"Int64", false⟩], true, 8⟩ = true :=
  ⟨rfl, claim_C1_ready_gate.1 (.ofAST (.identifier "x" ""))
    ⟨[], some ⟨[(.forLiteral (AST.treeHash (.identifier "x" "")) [],
        ⟨[⟨"Int64", false⟩], true, 8⟩)]⟩⟩ ⟨[⟨"Int64", false⟩], true, 8⟩ rfl⟩

/-- Claim C5: on a syntax-tree node that is not a subquery or table
reference, the third overload returns a set only if for every position of the
key-position mapping the candidate set's element type at that set-internal
tuple index equals the expected type at that position; and given two
same-hash registry entries of which only the second satisfies the
per-position equality, the second is returned. -/
theorem claim_C5_type_matching :
    (∀ (a : AST) (bk : Block) (ps : PreparedSets)
        (im : List KeyTuplePositionMapping) (dts : List DataType) (s : PreparedSet),
      a.isSubqueryOrTableIdentifier = false →
      RPNBuilderTreeNode.tryGetPreparedSetWithMapping (.ofAST a) ⟨bk, some ps⟩ im dts =
        .ok (some s) →
      ∀ (i : Nat) (h1 : i < im.length) (h2 : i < dts.length),
        s.areTypesEqual (im.get ⟨i, h1⟩).tuple_index (dts.get ⟨i, h2⟩) = true) ∧
    (∀ (a : AST) (bk : Block) (k1 k2 : PreparedSetKey) (s1 s2 : PreparedSet)
        (im : List KeyTuplePositionMapping) (dts : List DataType),
      PreparedSetKey.astHash k1 = a.treeHash →
      PreparedSetKey.astHash k2 = a.treeHash →
      a.isSubqueryOrTableIdentifier = false →
      typesMatch im dts s1 = false →
      typesMatch im dts s2 = true →
      RPNBuilderTreeNode.tryGetPreparedSetWithMapping (.ofAST a)
        ⟨bk, some ⟨[(k1, s1), (k2, s2)]⟩⟩ im dts = .ok (some s2)) := by
  constructor
  · intro a bk ps im dts s hsub h
    simp only [RPNBuilderTreeNode.tryGetPreparedSetWithMapping] at h
    split at h
    · rename_i hsq
      rw [hsub] at hsq
      exact absurd hsq (by simp)
    · split at h
      · rename_i s1 hfind
        simp only [Except.ok.injEq, Option.some.injEq] at h
        subst h
        have htm := List.find?_some hfind
        simp only [typesMatch] at htm
        intro i h1 h2
        have hi := List.all_eq_true.mp htm i (List.mem_range.mpr h1)
        simp only at hi
        rw [List.getElem?_eq_getElem h1, List.getElem?_eq_getElem h2] at hi
        simp only at hi
        rw [List.get_eq_getElem, List.get_eq_getElem]
        exact hi
      · simp at h
  · intro a bk k1 k2 s1 s2 im dts hk1 hk2 hsub hm1 hm2
    simp [RPNBuilderTreeNode.tryGetPreparedSetWithMapping, hsub,
      PreparedSets.getByTreeHash, List.filter, hk1, hk2, List.find?, hm1, hm2]

/-- Witness for claim C5 at a registry with two same-hash entries of which
only the second is type-compatible. -/
theorem claim_C5_type_matching_witness :
    PreparedSetKey.astHash (.forLiteral (AST.treeHash (.identifier "x" "")) [⟨"String", false⟩]) =
        AST.treeHash (.identifier "x" "") ∧
      PreparedSetKey.astHash (.forLiteral (AST.treeHash (.identifier "x" "")) []) =
        AST.treeHash (.identifier "x" "") ∧
      AST.isSubqueryOrTableIdentifier (.identifier "x" "") = false ∧
      typesMatch [⟨0, 0⟩] [⟨"Int64", false⟩] ⟨[⟨"String", false⟩], true, 1⟩ = false ∧
      typesMatch [⟨0, 0⟩] [⟨"Int64", false⟩] ⟨[⟨"Int64", false⟩], true, 2⟩ = true ∧
      RPNBuilderTreeNode.tryGetPreparedSetWithMapping (.ofAST (.identifier "x" ""))
        ⟨[], some ⟨[(.forLiteral (AST.treeHash (.identifier "x" "")) [⟨"String", false⟩],
            ⟨[⟨"String", false⟩], true, 1⟩),
          (.forLiteral (AST.treeHash (.identifier "x" "")) [],
            ⟨[⟨"Int64", false⟩], true, 2⟩)]⟩⟩
        [⟨0, 0⟩] [⟨"Int64", false⟩] = .ok (some ⟨[⟨"Int64", false⟩], true, 2⟩) :=
  ⟨rfl, rfl, rfl, rfl, rfl,
   claim_C5_type_matching.2 (.identifier "x" "") []
     (.forLiteral (AST.treeHash (.identifier "x" "")) [⟨"String", false⟩])
     (.forLiteral (AST.treeHash (.identifier "x" "")) [])
     ⟨[⟨"String", false⟩], true, 1⟩ ⟨[⟨"Int64", false⟩], true, 2⟩
     [⟨0, 0⟩] [⟨"Int64", false⟩] rfl rfl rfl rfl rfl⟩

end RPN
